import Mathlib

set_option autoImplicit false
set_option linter.unusedVariables false

/-! Verification of the embedding subsystem of the AI-Recruitment-Analyzer
repository, file src/app/core/spark_embedding.py, as a shallow embedding.

Scalar values produced by the embedding backends are modelled as rationals.
The floating point square root x ** 0.5 is modelled by an abstract function
passed as a parameter. The global numpy random generator is modelled by an
abstract state type together with a seeding function and a drawing function:
np.random.seed resets the state from an integer seed and np.random.normal
draws a list of samples and advances the state. Network input output is
modelled by an environment function giving the outcome of every HTTP attempt.
Library primitives (md5, base64, hmac sha256, urlencode) are modelled as
abstract function parameters, universally quantified in the theorems. -/

/-- Model of the global numpy random generator: seeding resets the state and
drawing normal samples returns the samples together with the next state. The
field normal_length records that np.random.normal 0 0.3 n returns n samples. -/
structure RngModel (σ : Type) where
  seed : Nat → σ
  normal : σ → Nat → List ℚ × σ
  normal_length : ∀ (s : σ) (n : Nat), (normal s n).1.length = n

/-- Shallow embedding of the shared body of the two _generate_fallback_vector
methods of the source (SparkEmbeddingAPI uses dimension 512, SparkEmbeddings
dimension 384; they are otherwise identical). The md5 based seed derivation
int of the first 8 hex digits of md5 of the text is modelled by the abstract
function hash32; the code reduces it mod 2 ^ 32, seeds the global generator,
draws dim normal samples, computes the Euclidean magnitude as the square root
of the sum of squares, and divides every entry by the magnitude when the
magnitude is positive, returning the drawn vector unchanged otherwise. -/
def generate_fallback_vector_generic {σ : Type} (sqrt : ℚ → ℚ) (rng : RngModel σ)
    (hash32 : String → Nat) (dim : Nat) (text : String) (s : σ) : List ℚ × σ :=
  let seed := hash32 text % 2 ^ 32
  let s1 := rng.seed seed
  let drawn := rng.normal s1 dim
  let vector := drawn.1
  let magnitude := sqrt ((vector.map (fun x => x * x)).sum)
  (if 0 < magnitude then vector.map (fun x => x / magnitude) else vector, drawn.2)

/-- SparkEmbeddingAPI._generate_fallback_vector, dimension 512. -/
def SparkEmbeddingAPI.generate_fallback_vector {σ : Type} (sqrt : ℚ → ℚ)
    (rng : RngModel σ) (hash32 : String → Nat) (text : String) (s : σ) :
    List ℚ × σ :=
  generate_fallback_vector_generic sqrt rng hash32 512 text s

/-- SparkEmbeddings._generate_fallback_vector, dimension 384. -/
def SparkEmbeddings.generate_fallback_vector {σ : Type} (sqrt : ℚ → ℚ)
    (rng : RngModel σ) (hash32 : String → Nat) (text : String) (s : σ) :
    List ℚ × σ :=
  generate_fallback_vector_generic sqrt rng hash32 384 text s

/-- The vector drawn by np.random.normal inside the fallback generator, before
normalization. -/
def drawnVector {σ : Type} (rng : RngModel σ) (hash32 : String → Nat) (dim : Nat)
    (text : String) : List ℚ :=
  (rng.normal (rng.seed (hash32 text % 2 ^ 32)) dim).1

/-- Sum of squares of the entries of a vector, the square of its Euclidean
magnitude. -/
def sumSquares (v : List ℚ) : ℚ := (v.map (fun x => x * x)).sum

/-- Outcome of one HTTP attempt inside SparkEmbeddingAPI.embed_text: either a
response carrying an HTTP status, the provider header code and the decoded
payload vector, or a transport exception raised by requests.post. -/
inductive SparkResponse where
  | http (status : Nat) (code : Int) (vector : List ℚ)
  | exn

/-- True for the outcomes the retry loop treats as retryable: a transport
exception, a non 200 HTTP status, or the provider rate limit code 11202. -/
def SparkResponse.isRetryableFailure : SparkResponse → Bool
  | .http status code _ =>
      if status = 200 then (if code = 11202 then true else false) else true
  | .exn => true

/-- True exactly for a 200 response whose header code is the rate limit code
11202. -/
def SparkResponse.isRateLimited : SparkResponse → Bool
  | .http status code _ =>
      if status = 200 then (if code = 11202 then true else false) else false
  | .exn => false

/-- Shallow embedding of the retry loop of SparkEmbeddingAPI.embed_text.
The Python loop is for attempt in range(max_retries); here fuel counts the
remaining iterations, so the loop starts at attempt 0 with fuel 3 and the
Python guard attempt < max_retries - 1 is 0 < fuel at the current iteration.
The second component of the result is the number of attempts consumed. Every
exception raised inside the body is caught by the except clause of the source,
so the translation is a total function: no path raises to the caller. -/
def embed_text_loop (fallback : List ℚ) (responses : Nat → SparkResponse) :
    Nat → Nat → List ℚ × Nat
  | attempt, 0 => (fallback, attempt)
  | attempt, fuel + 1 =>
    match responses attempt with
    | .http status code vector =>
      if status = 200 then
        if code = 0 then (vector, attempt + 1)
        else if code = 11202 then
          if 0 < fuel then embed_text_loop fallback responses (attempt + 1) fuel
          else (fallback, attempt + 1)
        else (fallback, attempt + 1)
      else
        if 0 < fuel then embed_text_loop fallback responses (attempt + 1) fuel
        else (fallback, attempt + 1)
    | .exn =>
      if 0 < fuel then embed_text_loop fallback responses (attempt + 1) fuel
      else (fallback, attempt + 1)

/-- SparkEmbeddingAPI.embed_text with max_retries = 3. The domain argument
only feeds the request body in the source and does not influence control
flow. The fallback vector is computed by _generate_fallback_vector, whose
output does not depend on the generator state, so computing it from the
initial state s is faithful. -/
def SparkEmbeddingAPI.embed_text {σ : Type} (sqrt : ℚ → ℚ) (rng : RngModel σ)
    (hash32 : String → Nat) (s : σ) (responses : Nat → SparkResponse)
    (text : String) (domain : String) : List ℚ × Nat :=
  embed_text_loop
    (SparkEmbeddingAPI.generate_fallback_vector sqrt rng hash32 text s).1
    responses 0 3

/-- The indexed traversal inside SparkEmbeddingAPI.embed_texts: one embed_text
call per text at consecutive call indices; env gives the HTTP outcomes of
every call, per call index. -/
def SparkEmbeddingAPI.embed_texts_go {σ : Type} (sqrt : ℚ → ℚ) (rng : RngModel σ)
    (hash32 : String → Nat) (s : σ) (env : Nat → Nat → SparkResponse)
    (domain : String) : Nat → List String → List (List ℚ)
  | _, [] => []
  | i, t :: ts =>
    (SparkEmbeddingAPI.embed_text sqrt rng hash32 s (env i) t domain).1 ::
      SparkEmbeddingAPI.embed_texts_go sqrt rng hash32 s env domain (i + 1) ts

/-- SparkEmbeddingAPI.embed_texts: sequential per text embedding, appending
the vectors in input order (the inter call sleep has no observable effect in
the model). -/
def SparkEmbeddingAPI.embed_texts {σ : Type} (sqrt : ℚ → ℚ) (rng : RngModel σ)
    (hash32 : String → Nat) (s : σ) (env : Nat → Nat → SparkResponse)
    (texts : List String) (domain : String) : List (List ℚ) :=
  SparkEmbeddingAPI.embed_texts_go sqrt rng hash32 s env domain 0 texts

/-- SparkEmbeddings._embed_with_local_model. The sentence transformer model is
modelled as an Option: none when the import failed and self.model is None,
some encode otherwise, where encode may raise (Except.error). The second
component of the result is the list of argument lists passed to the
underlying model, recording its invocations: when a model is present the
source calls self.model.encode exactly once with the whole input list; when
it is absent each text gets the 384 dimension fallback vector and the model
is never invoked. An exception from encode is not caught by the source and
propagates to the caller. -/
def SparkEmbeddings.embed_with_local_model {σ ε : Type} (sqrt : ℚ → ℚ)
    (rng : RngModel σ) (hash32 : String → Nat) (s : σ)
    (model : Option (List String → Except ε (List (List ℚ))))
    (texts : List String) : Except ε (List (List ℚ)) × List (List String) :=
  match model with
  | some encode => (encode texts, [texts])
  | none =>
    (.ok (texts.map
        (fun t => (SparkEmbeddings.generate_fallback_vector sqrt rng hash32 t s).1)),
      [])

/-- SparkEmbeddings.embed_documents: the real spark path delegates to
SparkEmbeddingAPI.embed_texts with domain para, the local path to
_embed_with_local_model. -/
def SparkEmbeddings.embed_documents {σ ε : Type} (sqrt : ℚ → ℚ)
    (rng : RngModel σ) (hash32 : String → Nat) (s : σ) (use_real_spark : Bool)
    (model : Option (List String → Except ε (List (List ℚ))))
    (env : Nat → Nat → SparkResponse) (texts : List String) :
    Except ε (List (List ℚ)) :=
  if use_real_spark then
    .ok (SparkEmbeddingAPI.embed_texts sqrt rng hash32 s env texts "para")
  else
    (SparkEmbeddings.embed_with_local_model sqrt rng hash32 s model texts).1

/-- SparkEmbeddings.embed_query: the real spark path delegates to
SparkEmbeddingAPI.embed_text with domain query; the local path embeds the one
element list and takes index 0, raising an index error when the model
returned an empty list (modelled as error none) and propagating a model
exception (error (some e)). -/
def SparkEmbeddings.embed_query {σ ε : Type} (sqrt : ℚ → ℚ) (rng : RngModel σ)
    (hash32 : String → Nat) (s : σ) (use_real_spark : Bool)
    (model : Option (List String → Except ε (List (List ℚ))))
    (responses : Nat → SparkResponse) (text : String) :
    Except (Option ε) (List ℚ) :=
  if use_real_spark then
    .ok (SparkEmbeddingAPI.embed_text sqrt rng hash32 s responses text "query").1
  else
    match (SparkEmbeddings.embed_with_local_model sqrt rng hash32 s model [text]).1 with
    | .error e => .error (some e)
    | .ok vs =>
      match vs.head? with
      | some v => .ok v
      | none => .error none

/-- First index at which pat occurs as a contiguous run inside l, the
behaviour of the Python str.index search (none models the ValueError). -/
def findSubstrIdx (l pat : List Char) : Option Nat :=
  if pat.isPrefixOf l then some 0
  else
    match l with
    | [] => none
    | _ :: tl => (findSubstrIdx tl pat).map (fun i => i + 1)

/-- The host, path and schema extracted by SparkEmbeddingAPI._parse_url. -/
structure ParsedUrl where
  host : List Char
  path : List Char
  schema : List Char
deriving DecidableEq

/-- SparkEmbeddingAPI._parse_url: locate the separator of the schema, split
the remainder at the first slash into host and path; a missing separator or
slash models the ValueError of str.index, and a slash at position 0 raises
the explicit invalid request url exception of the source. -/
def SparkEmbeddingAPI.parse_url (request_url : List Char) :
    Except (List Char) ParsedUrl :=
  match findSubstrIdx request_url ("://".toList) with
  | none => .error ("substring not found".toList)
  | some stidx =>
    let host0 := request_url.drop (stidx + 3)
    let schema := request_url.take (stidx + 3)
    match findSubstrIdx host0 ("/".toList) with
    | none => .error ("substring not found".toList)
    | some edidx =>
      if edidx ≤ 0 then .error ("invalid request url:".toList ++ request_url)
      else .ok ⟨host0.take edidx, host0.drop edidx, schema⟩

/-- SparkEmbeddingAPI._assemble_ws_auth_url. The library primitives are
parameters: hmacSha256 key message models hmac.new(key, message, sha256)
followed by digest, b64 models base64.b64encode with the utf8 decode, and
urlencode models urllib.parse.urlencode on the three listed pairs. The date
is the RFC 1123 timestamp the source derives from datetime.now, passed here
as a parameter since it is read from the wall clock. -/
def SparkEmbeddingAPI.assemble_ws_auth_url
    (hmacSha256 : List Char → List Char → List Char) (b64 : List Char → List Char)
    (urlencode : List (List Char × List Char) → List Char)
    (api_key api_secret : List Char) (date : List Char)
    (request_url : List Char) (method : List Char) :
    Except (List Char) (List Char) :=
  match SparkEmbeddingAPI.parse_url request_url with
  | .error e => .error e
  | .ok u =>
    let signature_origin :=
      "host: ".toList ++ u.host ++ "\ndate: ".toList ++ date ++ "\n".toList ++
        method ++ " ".toList ++ u.path ++ " HTTP/1.1".toList
    let signature_sha := b64 (hmacSha256 api_secret signature_origin)
    let authorization_origin :=
      "api_key=\"".toList ++ api_key ++ "\", algorithm=\"".toList ++
        "hmac-sha256".toList ++ "\", headers=\"".toList ++
        "host date request-line".toList ++ "\", signature=\"".toList ++
        signature_sha ++ "\"".toList
    let authorization := b64 authorization_origin
    .ok (request_url ++ "?".toList ++
      urlencode [("host".toList, u.host), ("date".toList, date),
        ("authorization".toList, authorization)])

/-- Written from the words of the spec, section Request signing: the canonical
string over which the HMAC SHA256 signature is computed, containing host,
RFC 1123 timestamp and request line. -/
def spec_canonical_string (host date method path : List Char) : List Char :=
  "host: ".toList ++ host ++ "\ndate: ".toList ++ date ++ "\n".toList ++
    method ++ " ".toList ++ path ++ " HTTP/1.1".toList

/-- Modelled from the spec: the cache backed embedding service facade with
statistics, sections 4.1 and 4.5 of the spec. The corresponding repository
code, the module level embed_texts, get_embedding_stats and
clear_embedding_cache of app.core.spark_embedding, is imported by
src/tests/test_embedding_optimization.py, src/tests/test_services_integration.py
and src/app/main.py, but is not present under src/. The wall clock timing
fields of Stats are omitted; the counters totalRequests and cacheHits and the
bounded insertion order cache are modelled. The cache is a list of key and
vector pairs in insertion order, oldest first. -/
structure EmbeddingService where
  normalize : String → String
  backend : List String → List (List ℚ)
  cacheSize : Nat
  cache : List (String × List ℚ)
  totalRequests : Nat
  cacheHits : Nat

/-- Modelled from the spec: cache probe, first entry with the given key. -/
def cacheGet (cache : List (String × List ℚ)) (key : String) : Option (List ℚ) :=
  (cache.find? (fun e => e.1 == key)).map (fun e => e.2)

/-- Modelled from the spec: cache insertion. Reinserting an existing key does
not change the cache; otherwise the entry is appended and, when the capacity
would be exceeded, the single oldest entry is evicted. -/
def cachePut (cacheSize : Nat) (cache : List (String × List ℚ)) (key : String)
    (v : List ℚ) : List (String × List ℚ) :=
  if (cache.find? (fun e => e.1 == key)).isSome then cache
  else
    let c := cache ++ [(key, v)]
    if cacheSize < c.length then c.drop 1 else c

/-- Modelled from the spec: vector computed for a miss key, read back from the
list of freshly computed pairs. -/
def lookupMiss (pairs : List (String × List ℚ)) (key : String) : List ℚ :=
  match pairs.find? (fun e => e.1 == key) with
  | some e => e.2
  | none => []

/-- Modelled from the spec, algorithm of EmbedDocuments in section 4.5:
normalize every text, probe the cache, send exactly the miss texts to the
backend in one batch, insert the fresh vectors, reassemble the output in the
original order, and update totalRequests by the number of texts and cacheHits
by the hit count. -/
def EmbeddingService.embedDocuments (svc : EmbeddingService)
    (texts : List String) : List (List ℚ) × EmbeddingService :=
  let keys := texts.map svc.normalize
  let probes := keys.map (fun k => (k, cacheGet svc.cache k))
  let missKeys := probes.filterMap (fun p => if p.2.isSome then none else some p.1)
  let computed := svc.backend missKeys
  let missPairs := missKeys.zip computed
  let cache1 := missPairs.foldl (fun c kv => cachePut svc.cacheSize c kv.1 kv.2) svc.cache
  let hitCount := (probes.filter (fun p => p.2.isSome)).length
  let out := probes.map (fun p =>
    match p.2 with
    | some v => v
    | none => lookupMiss missPairs p.1)
  (out,
    { svc with
      cache := cache1
      totalRequests := svc.totalRequests + texts.length
      cacheHits := svc.cacheHits + hitCount })

/-- A concrete generator model used by the witnesses: seeding is trivial and
drawing n samples returns n copies of one half. -/
def rngW : RngModel Unit where
  seed := fun _ => ()
  normal := fun _ n => (List.replicate n (1 / 2 : ℚ), ())
  normal_length := fun _ n => by simp

/-- A concrete stand in for the md5 seed derivation, used by the witnesses. -/
def hash32W : String → Nat := fun t => t.length

/-- A concrete stand in for the floating point square root, used by the
witnesses; it is exact at the inputs the witnesses evaluate it on. -/
def sqrtW : ℚ → ℚ := fun q => if q = 1 then 1 else 0

/-- An environment in which every attempt fails retryably: a transport
exception, then HTTP status 500, then the rate limit code. -/
def respFailW : Nat → SparkResponse := fun i =>
  if i = 0 then .exn else if i = 1 then .http 500 0 [] else .http 200 11202 []

/-- An environment with a rate limit on attempt 0 and a hard provider error
code 10007 from attempt 1 on. -/
def respHardW : Nat → SparkResponse := fun i =>
  if i = 0 then .http 200 11202 [] else .http 200 10007 []

/-- An environment that is rate limited on every attempt. -/
def respRateW : Nat → SparkResponse := fun _ => .http 200 11202 []

/-- An environment with a rate limit on attempt 0 and success from attempt 1
on. -/
def respSuccW : Nat → SparkResponse := fun i =>
  if i = 0 then .http 200 11202 [] else .http 200 0 [3]

/-- A concrete stand in for the sentence transformer encode: every text maps
to the singleton zero vector. -/
def encodeW : List String → Except Unit (List (List ℚ)) :=
  fun ts => .ok (ts.map (fun _ => [0]))

/-- A concrete encode that raises on every input, modelling a model exception
during encoding. -/
def encodeErrW : List String → Except Unit (List (List ℚ)) :=
  fun _ => .error ()

/-- A concrete embedding service for the witnesses: identity normalization, a
backend answering the singleton one vector for every text, capacity 1000,
empty cache, zeroed counters. -/
def svcW : EmbeddingService where
  normalize := fun t => t
  backend := fun ts => ts.map (fun _ => [1])
  cacheSize := 1000
  cache := []
  totalRequests := 0
  cacheHits := 0

/-- One unfolding of the retry loop when fuel remains. -/
theorem embed_text_loop_succ (fb : List ℚ) (rs : Nat → SparkResponse)
    (a fuel : Nat) :
    embed_text_loop fb rs a (fuel + 1) =
      match rs a with
      | .http status code vector =>
        if status = 200 then
          if code = 0 then (vector, a + 1)
          else if code = 11202 then
            if 0 < fuel then embed_text_loop fb rs (a + 1) fuel else (fb, a + 1)
          else (fb, a + 1)
        else
          if 0 < fuel then embed_text_loop fb rs (a + 1) fuel else (fb, a + 1)
      | .exn =>
        if 0 < fuel then embed_text_loop fb rs (a + 1) fuel else (fb, a + 1) := by
  rw [embed_text_loop]

/-- A retryable failure with fuel remaining moves to the next attempt. -/
theorem embed_text_loop_step_retryable (fb : List ℚ) (rs : Nat → SparkResponse)
    (a fuel : Nat) (h : (rs a).isRetryableFailure = true) (hf : 0 < fuel) :
    embed_text_loop fb rs a (fuel + 1) = embed_text_loop fb rs (a + 1) fuel := by
  rw [embed_text_loop_succ]
  cases hra : rs a with
  | exn => simp [hf]
  | http status code vector =>
    rw [hra] at h
    simp only [SparkResponse.isRetryableFailure] at h
    by_cases h200 : status = 200
    · simp only [h200, if_true] at h ⊢
      by_cases hc : code = 11202
      · have hc0 : ¬ code = 0 := by rw [hc]; norm_num
        simp [hc, hc0, hf]
      · simp [hc] at h
    · simp [h200, hf]

/-- A retryable failure on the last attempt returns the fallback. -/
theorem embed_text_loop_last_retryable (fb : List ℚ) (rs : Nat → SparkResponse)
    (a : Nat) (h : (rs a).isRetryableFailure = true) :
    embed_text_loop fb rs a 1 = (fb, a + 1) := by
  have h1 : (1 : Nat) = 0 + 1 := rfl
  rw [h1, embed_text_loop_succ]
  cases hra : rs a with
  | exn => simp
  | http status code vector =>
    rw [hra] at h
    simp only [SparkResponse.isRetryableFailure] at h
    by_cases h200 : status = 200
    · simp only [h200, if_true] at h ⊢
      by_cases hc : code = 11202
      · have hc0 : ¬ code = 0 := by rw [hc]; norm_num
        simp [hc, hc0]
      · simp [hc] at h
    · simp [h200]

/-- A hard provider error, a 200 response whose code is neither 0 nor 11202,
aborts the loop at once with the fallback, regardless of remaining fuel. -/
theorem embed_text_loop_hard (fb : List ℚ) (rs : Nat → SparkResponse)
    (a fuel : Nat) (c : Int) (v : List ℚ) (hra : rs a = .http 200 c v)
    (hc0 : c ≠ 0) (hc1 : c ≠ 11202) :
    embed_text_loop fb rs a (fuel + 1) = (fb, a + 1) := by
  rw [embed_text_loop_succ, hra]
  simp [hc0, hc1]

/-- A successful response, status 200 and code 0, returns its vector. -/
theorem embed_text_loop_success (fb : List ℚ) (rs : Nat → SparkResponse)
    (a fuel : Nat) (v : List ℚ) (hra : rs a = .http 200 0 v) :
    embed_text_loop fb rs a (fuel + 1) = (v, a + 1) := by
  rw [embed_text_loop_succ, hra]
  simp

/-- Three retryable failures exhaust the three attempts and return the
fallback. -/
theorem embed_text_loop_all_retryable (fb : List ℚ) (rs : Nat → SparkResponse)
    (h : ∀ i, i < 3 → (rs i).isRetryableFailure = true) :
    embed_text_loop fb rs 0 3 = (fb, 3) := by
  have e0 : embed_text_loop fb rs 0 3 = embed_text_loop fb rs 1 2 :=
    embed_text_loop_step_retryable fb rs 0 2 (h 0 (by norm_num)) (by norm_num)
  have e1 : embed_text_loop fb rs 1 2 = embed_text_loop fb rs 2 1 :=
    embed_text_loop_step_retryable fb rs 1 1 (h 1 (by norm_num)) (by norm_num)
  have e2 : embed_text_loop fb rs 2 1 = (fb, 3) :=
    embed_text_loop_last_retryable fb rs 2 (h 2 (by norm_num))
  rw [e0, e1, e2]

/-- A rate limited response is a retryable failure. -/
theorem SparkResponse.isRetryableFailure_of_isRateLimited (r : SparkResponse)
    (h : r.isRateLimited = true) : r.isRetryableFailure = true := by
  cases r with
  | exn => simp [SparkResponse.isRateLimited] at h
  | http status code vector =>
    simp only [SparkResponse.isRateLimited] at h
    simp only [SparkResponse.isRetryableFailure]
    by_cases h200 : status = 200
    · simp only [h200, if_true] at h ⊢
      exact h
    · simp [h200]

/-- Sum of squares of a cons. -/
theorem sumSquares_cons (x : ℚ) (v : List ℚ) :
    sumSquares (x :: v) = x * x + sumSquares v := by
  simp [sumSquares]

/-- A sum of squares is nonnegative. -/
theorem sumSquares_nonneg (v : List ℚ) : 0 ≤ sumSquares v := by
  induction v with
  | nil => simp [sumSquares]
  | cons x v ih =>
    rw [sumSquares_cons]
    exact add_nonneg (mul_self_nonneg x) ih

/-- Dividing every entry by c divides the sum of squares by c * c. -/
theorem sumSquares_map_div (v : List ℚ) (c : ℚ) :
    sumSquares (v.map (fun x => x / c)) = sumSquares v / (c * c) := by
  induction v with
  | nil => simp [sumSquares]
  | cons x v ih =>
    simp only [List.map_cons, sumSquares_cons, ih]
    rw [div_mul_div_comm, div_add_div_same]

/-- A vector whose sum of squares vanishes is the all zero vector. -/
theorem sumSquares_eq_zero {v : List ℚ} (h : sumSquares v = 0) :
    ∀ x ∈ v, x = 0 := by
  induction v with
  | nil => simp
  | cons y v ih =>
    rw [sumSquares_cons] at h
    have hy : y * y = 0 ∧ sumSquares v = 0 := by
      have h1 := mul_self_nonneg y
      have h2 := sumSquares_nonneg v
      constructor <;> linarith
    intro x hx
    rcases List.mem_cons.mp hx with hx | hx
    · rw [hx]
      exact mul_self_eq_zero.mp hy.1
    · exact ih hy.2 x hx

/-- If a predicate finds nothing in the first list, searching the
concatenation searches the second list. -/
theorem find?_append_of_none {α : Type} (p : α → Bool) (l1 l2 : List α)
    (h : l1.find? p = none) : (l1 ++ l2).find? p = l2.find? p := by
  induction l1 with
  | nil => simp
  | cons a l ih =>
    cases hpa : p a with
    | true =>
      rw [List.find?_cons_of_pos _ hpa] at h
      exact absurd h (by simp)
    | false =>
      rw [List.find?_cons_of_neg _ (by simp [hpa])] at h
      rw [List.cons_append, List.find?_cons_of_neg _ (by simp [hpa])]
      exact ih h

/-- If the first entry of a cons is not found, nothing later is found. -/
theorem find?_of_cons_none {α : Type} {p : α → Bool} {a : α} {l : List α}
    (h : (a :: l).find? p = none) : l.find? p = none := by
  cases hpa : p a with
  | true =>
    rw [List.find?_cons_of_pos _ hpa] at h
    exact absurd h (by simp)
  | false => rwa [List.find?_cons_of_neg _ (by simp [hpa])] at h

/-- Length of the indexed traversal of embed_texts. -/
theorem embed_texts_go_length {σ : Type} (sqrt : ℚ → ℚ) (rng : RngModel σ)
    (hash32 : String → Nat) (s : σ) (env : Nat → Nat → SparkResponse)
    (domain : String) (ts : List String) (i : Nat) :
    (SparkEmbeddingAPI.embed_texts_go sqrt rng hash32 s env domain i ts).length =
      ts.length := by
  induction ts generalizing i with
  | nil => rfl
  | cons t ts ih => simp [SparkEmbeddingAPI.embed_texts_go, ih]

/-- Entry j of the indexed traversal of embed_texts is the embedding of entry
j of the input, through the environment of call i + j. -/
theorem embed_texts_go_getElem? {σ : Type} (sqrt : ℚ → ℚ) (rng : RngModel σ)
    (hash32 : String → Nat) (s : σ) (env : Nat → Nat → SparkResponse)
    (domain : String) (ts : List String) (i j : Nat) :
    (SparkEmbeddingAPI.embed_texts_go sqrt rng hash32 s env domain i ts)[j]? =
      (ts[j]?).map
        (fun t => (SparkEmbeddingAPI.embed_text sqrt rng hash32 s (env (i + j)) t domain).1) := by
  induction ts generalizing i j with
  | nil => simp [SparkEmbeddingAPI.embed_texts_go]
  | cons t ts ih =>
    cases j with
    | zero => simp [SparkEmbeddingAPI.embed_texts_go]
    | succ j =>
      have hidx : i + (j + 1) = i + 1 + j := by omega
      rw [hidx]
      simp only [SparkEmbeddingAPI.embed_texts_go, List.getElem?_cons_succ]
      exact ih (i + 1) j

/-- After inserting a key that was absent, a probe for that key finds the
fresh vector, provided the capacity is at least one. -/
theorem cacheGet_cachePut_self (size : Nat) (cache : List (String × List ℚ))
    (k : String) (v : List ℚ) (hnone : cacheGet cache k = none)
    (hsize : 1 ≤ size) : cacheGet (cachePut size cache k v) k = some v := by
  have hfind : cache.find? (fun e => e.1 == k) = none := by
    unfold cacheGet at hnone
    cases h : cache.find? (fun e => e.1 == k) with
    | none => rfl
    | some e => rw [h] at hnone; simp at hnone
  have hsingle : List.find? (fun e => e.1 == k) [(k, v)] = some (k, v) := by
    simp [List.find?]
  unfold cachePut
  rw [hfind]
  simp only [Option.isSome_none, Bool.false_eq_true, if_false]
  by_cases hlen : size < (cache ++ [(k, v)]).length
  · rw [if_pos hlen]
    cases cache with
    | nil => simp at hlen; omega
    | cons e tl =>
      have htl : tl.find? (fun x => x.1 == k) = none := find?_of_cons_none hfind
      have hdrop : ((e :: tl ++ [(k, v)]).drop 1) = tl ++ [(k, v)] := rfl
      rw [hdrop]
      unfold cacheGet
      rw [find?_append_of_none _ _ _ htl, hsingle]
      rfl
  · rw [if_neg hlen]
    unfold cacheGet
    rw [find?_append_of_none _ _ _ hfind, hsingle]
    rfl

/-- A single text call that hits the cache: the cached vector is returned,
the cache is unchanged, and both counters advance by one. -/
theorem embedDocuments_single_hit (svc : EmbeddingService) (t : String)
    (v : List ℚ) (h : cacheGet svc.cache (svc.normalize t) = some v) :
    svc.embedDocuments [t] =
      ([v], { svc with
              totalRequests := svc.totalRequests + 1
              cacheHits := svc.cacheHits + 1 }) := by
  simp [EmbeddingService.embedDocuments, h]

/-- A single text call that misses the cache: the backend vector is returned
and cached, totalRequests advances by one, cacheHits is unchanged. -/
theorem embedDocuments_single_miss (svc : EmbeddingService) (t : String)
    (w : List ℚ) (hmiss : cacheGet svc.cache (svc.normalize t) = none)
    (hw : svc.backend [svc.normalize t] = [w]) :
    svc.embedDocuments [t] =
      ([w], { svc with
              cache := cachePut svc.cacheSize svc.cache (svc.normalize t) w
              totalRequests := svc.totalRequests + 1 }) := by
  simp [EmbeddingService.embedDocuments, hmiss, hw, lookupMiss, List.find?]

/-- C7: the fallback vector generator is a pure deterministic function of the
text. The source reseeds the global numpy generator from the md5 derived seed
of the text before drawing, so the produced vector does not depend on the
incoming generator state: two calls with the same text, at arbitrary states
s1 and s2 of the global generator, return identical vectors, for the 512
dimension variant of SparkEmbeddingAPI and the 384 dimension variant of
SparkEmbeddings alike. -/
theorem c7_fallback_vector_deterministic {σ : Type} (sqrt : ℚ → ℚ)
    (rng : RngModel σ) (hash32 : String → Nat) (text : String) (s1 s2 : σ) :
    (SparkEmbeddingAPI.generate_fallback_vector sqrt rng hash32 text s1).1 =
      (SparkEmbeddingAPI.generate_fallback_vector sqrt rng hash32 text s2).1 ∧
    (SparkEmbeddings.generate_fallback_vector sqrt rng hash32 text s1).1 =
      (SparkEmbeddings.generate_fallback_vector sqrt rng hash32 text s2).1 :=
  ⟨rfl, rfl⟩

/-- C8: the fallback vector is L2 normalized. When the magnitude computed by
the source, the square root of the sum of squares of the drawn vector, is
positive, the returned vector has sum of squares exactly 1, the idealization
of unit Euclidean norm in exact arithmetic; when the magnitude is zero the
drawn vector, which is then the all zero vector, is returned unchanged and no
division happens. The hypothesis hsq states that the modelled square root is
exact at the drawn sum of squares. -/
theorem c8_fallback_vector_unit_norm {σ : Type} (sqrt : ℚ → ℚ)
    (rng : RngModel σ) (hash32 : String → Nat) (dim : Nat) (text : String)
    (s : σ)
    (hsq : sqrt (sumSquares (drawnVector rng hash32 dim text)) *
        sqrt (sumSquares (drawnVector rng hash32 dim text)) =
      sumSquares (drawnVector rng hash32 dim text)) :
    (0 < sqrt (sumSquares (drawnVector rng hash32 dim text)) →
      sumSquares (generate_fallback_vector_generic sqrt rng hash32 dim text s).1 = 1) ∧
    (sqrt (sumSquares (drawnVector rng hash32 dim text)) = 0 →
      (generate_fallback_vector_generic sqrt rng hash32 dim text s).1 =
        drawnVector rng hash32 dim text ∧
      ∀ x ∈ drawnVector rng hash32 dim text, x = 0) := by
  have hgen : (generate_fallback_vector_generic sqrt rng hash32 dim text s).1 =
      if 0 < sqrt (sumSquares (drawnVector rng hash32 dim text)) then
        (drawnVector rng hash32 dim text).map
          (fun x => x / sqrt (sumSquares (drawnVector rng hash32 dim text)))
      else drawnVector rng hash32 dim text := rfl
  constructor
  · intro hm
    have hSpos : 0 < sumSquares (drawnVector rng hash32 dim text) := by
      rw [← hsq]
      exact mul_pos hm hm
    rw [hgen, if_pos hm, sumSquares_map_div, hsq]
    exact div_self (ne_of_gt hSpos)
  · intro hm0
    have hif : ¬ 0 < sqrt (sumSquares (drawnVector rng hash32 dim text)) := by
      rw [hm0]
      exact lt_irrefl 0
    refine ⟨by rw [hgen, if_neg hif], ?_⟩
    have hS0 : sumSquares (drawnVector rng hash32 dim text) = 0 := by
      rw [← hsq, hm0, mul_zero]
    exact sumSquares_eq_zero hS0

/-- C8 witness: with the concrete generator drawing four copies of one half,
the sum of squares of the draw is 1, the modelled square root is exact and
positive there, and the generated fallback vector has sum of squares 1. -/
theorem c8_witness :
    sqrtW (sumSquares (drawnVector rngW hash32W 4 "abcd")) *
        sqrtW (sumSquares (drawnVector rngW hash32W 4 "abcd")) =
      sumSquares (drawnVector rngW hash32W 4 "abcd") ∧
    0 < sqrtW (sumSquares (drawnVector rngW hash32W 4 "abcd")) ∧
    sumSquares (generate_fallback_vector_generic sqrtW rngW hash32W 4 "abcd" ()).1 = 1 :=
  ⟨by norm_num [sqrtW, sumSquares, drawnVector, rngW, hash32W, List.replicate],
    by norm_num [sqrtW, sumSquares, drawnVector, rngW, hash32W, List.replicate],
    (c8_fallback_vector_unit_norm sqrtW rngW hash32W 4 "abcd" ()
        (by norm_num [sqrtW, sumSquares, drawnVector, rngW, hash32W, List.replicate])).1
      (by norm_num [sqrtW, sumSquares, drawnVector, rngW, hash32W, List.replicate])⟩

/-- C1: if every one of the three attempts fails with the rate limit code
11202, a non 200 HTTP status, or a transport exception, embed_text returns
the deterministic fallback vector of _generate_fallback_vector after
consuming all three attempts; the translation is a total function, every
exception path of the source being caught inside the loop, so no exception
reaches the caller. -/
theorem c1_embed_text_exhausted_fallback {σ : Type} (sqrt : ℚ → ℚ)
    (rng : RngModel σ) (hash32 : String → Nat) (s : σ)
    (responses : Nat → SparkResponse) (text domain : String)
    (h : ∀ i, i < 3 → (responses i).isRetryableFailure = true) :
    SparkEmbeddingAPI.embed_text sqrt rng hash32 s responses text domain =
      ((SparkEmbeddingAPI.generate_fallback_vector sqrt rng hash32 text s).1, 3) := by
  unfold SparkEmbeddingAPI.embed_text
  exact embed_text_loop_all_retryable _ responses h

/-- C1 witness: a transport exception, an HTTP 500 and a rate limit in
sequence exhaust the retries and produce the fallback vector. -/
theorem c1_witness :
    (∀ i, i < 3 → (respFailW i).isRetryableFailure = true) ∧
    SparkEmbeddingAPI.embed_text sqrtW rngW hash32W () respFailW "cv" "query" =
      ((SparkEmbeddingAPI.generate_fallback_vector sqrtW rngW hash32W "cv" ()).1, 3) :=
  ⟨by decide,
    c1_embed_text_exhausted_fallback sqrtW rngW hash32W () respFailW "cv" "query"
      (by decide)⟩

/-- Rate limited responses on the attempts before position k walk the retry
loop from attempt 0 to attempt k without returning. -/
theorem embed_text_loop_prefix_rate (fb : List ℚ) (rs : Nat → SparkResponse)
    (k : Nat) (hk : k < 3) (hpre : ∀ i, i < k → (rs i).isRateLimited = true) :
    embed_text_loop fb rs 0 3 = embed_text_loop fb rs k (3 - k) := by
  interval_cases k
  · rfl
  · exact embed_text_loop_step_retryable fb rs 0 2
      (SparkResponse.isRetryableFailure_of_isRateLimited _ (hpre 0 (by norm_num)))
      (by norm_num)
  · rw [embed_text_loop_step_retryable fb rs 0 2
        (SparkResponse.isRetryableFailure_of_isRateLimited _ (hpre 0 (by norm_num)))
        (by norm_num),
      embed_text_loop_step_retryable fb rs 1 1
        (SparkResponse.isRetryableFailure_of_isRateLimited _ (hpre 1 (by norm_num)))
        (by norm_num)]

/-- C4: after any run of rate limited attempts, a 200 response whose header
code is neither 0 nor 11202 aborts the retry loop at once, consuming exactly
k + 1 attempts and returning the fallback vector; a rate limit on every
attempt consumes all three attempts before falling back; and a success after
rate limited attempts returns the provider vector, showing that a rate limit
does not abort the loop. -/
theorem c4_hard_error_aborts_rate_limit_retries {σ : Type} (sqrt : ℚ → ℚ)
    (rng : RngModel σ) (hash32 : String → Nat) (s : σ) (text domain : String)
    (rsHard : Nat → SparkResponse) (k : Nat) (c : Int) (v : List ℚ)
    (hk : k < 3) (hhard : rsHard k = .http 200 c v) (hc0 : c ≠ 0)
    (hc1 : c ≠ 11202) (hpre : ∀ i, i < k → (rsHard i).isRateLimited = true)
    (rsRate : Nat → SparkResponse)
    (hall : ∀ i, i < 3 → (rsRate i).isRateLimited = true)
    (rsSucc : Nat → SparkResponse) (k2 : Nat) (v2 : List ℚ) (hk2 : k2 < 3)
    (hsucc : rsSucc k2 = .http 200 0 v2)
    (hpre2 : ∀ i, i < k2 → (rsSucc i).isRateLimited = true) :
    SparkEmbeddingAPI.embed_text sqrt rng hash32 s rsHard text domain =
      ((SparkEmbeddingAPI.generate_fallback_vector sqrt rng hash32 text s).1, k + 1) ∧
    SparkEmbeddingAPI.embed_text sqrt rng hash32 s rsRate text domain =
      ((SparkEmbeddingAPI.generate_fallback_vector sqrt rng hash32 text s).1, 3) ∧
    SparkEmbeddingAPI.embed_text sqrt rng hash32 s rsSucc text domain =
      (v2, k2 + 1) := by
  refine ⟨?_, ?_, ?_⟩
  · unfold SparkEmbeddingAPI.embed_text
    rw [embed_text_loop_prefix_rate _ rsHard k hk hpre]
    interval_cases k
    · exact embed_text_loop_hard _ rsHard 0 2 c v hhard hc0 hc1
    · exact embed_text_loop_hard _ rsHard 1 1 c v hhard hc0 hc1
    · exact embed_text_loop_hard _ rsHard 2 0 c v hhard hc0 hc1
  · unfold SparkEmbeddingAPI.embed_text
    exact embed_text_loop_all_retryable _ rsRate
      (fun i hi => SparkResponse.isRetryableFailure_of_isRateLimited _ (hall i hi))
  · unfold SparkEmbeddingAPI.embed_text
    rw [embed_text_loop_prefix_rate _ rsSucc k2 hk2 hpre2]
    interval_cases k2
    · exact embed_text_loop_success _ rsSucc 0 2 v2 hsucc
    · exact embed_text_loop_success _ rsSucc 1 1 v2 hsucc
    · exact embed_text_loop_success _ rsSucc 2 0 v2 hsucc

/-- C4 witness: with a rate limit then the hard code 10007, the call stops
after two attempts with the fallback vector; with rate limits throughout it
stops after three; with a rate limit then a success it returns the provider
vector after two attempts. -/
theorem c4_witness :
    respHardW 1 = .http 200 10007 [] ∧
    (∀ i, i < 3 → (respRateW i).isRateLimited = true) ∧
    SparkEmbeddingAPI.embed_text sqrtW rngW hash32W () respHardW "cv2" "para" =
      ((SparkEmbeddingAPI.generate_fallback_vector sqrtW rngW hash32W "cv2" ()).1, 2) ∧
    SparkEmbeddingAPI.embed_text sqrtW rngW hash32W () respRateW "cv2" "para" =
      ((SparkEmbeddingAPI.generate_fallback_vector sqrtW rngW hash32W "cv2" ()).1, 3) ∧
    SparkEmbeddingAPI.embed_text sqrtW rngW hash32W () respSuccW "cv2" "para" =
      ([3], 2) := by
  have h := c4_hard_error_aborts_rate_limit_retries sqrtW rngW hash32W () "cv2"
    "para" respHardW 1 10007 [] (by decide) rfl (by decide) (by decide)
    (by decide) respRateW (by decide) respSuccW 1 [3] (by decide) rfl
    (by decide)
  exact ⟨rfl, by decide, h.1, h.2.1, h.2.2⟩

/-- C2: batch embedding returns one vector per input text, in input order.
The embed_texts result has the length of the input list, its entry i is the
embed_text result for input entry i under the outcomes of call i, for every
mix of per call outcomes, and embed_documents on the real spark path returns
exactly the embed_texts list with the para domain. -/
theorem c2_embed_texts_length_and_order {σ ε : Type} (sqrt : ℚ → ℚ)
    (rng : RngModel σ) (hash32 : String → Nat) (s : σ)
    (env : Nat → Nat → SparkResponse) (texts : List String) (domain : String)
    (model : Option (List String → Except ε (List (List ℚ)))) :
    (SparkEmbeddingAPI.embed_texts sqrt rng hash32 s env texts domain).length =
      texts.length ∧
    (∀ i : Nat,
      (SparkEmbeddingAPI.embed_texts sqrt rng hash32 s env texts domain)[i]? =
        (texts[i]?).map
          (fun t => (SparkEmbeddingAPI.embed_text sqrt rng hash32 s (env i) t domain).1)) ∧
    SparkEmbeddings.embed_documents sqrt rng hash32 s true model env texts =
      .ok (SparkEmbeddingAPI.embed_texts sqrt rng hash32 s env texts "para") := by
  refine ⟨embed_texts_go_length sqrt rng hash32 s env domain texts 0, ?_, ?_⟩
  · intro i
    have h := embed_texts_go_getElem? sqrt rng hash32 s env domain texts 0 i
    simpa using h
  · simp [SparkEmbeddings.embed_documents]

/-- C5 counterexample: with a model present and 100 input texts, the source
local model path invokes the underlying model exactly once, passing the whole
input list, not ceil of 100 over 32 = 4 times: no chunking of the input into
batches happens in this function. -/
theorem c5_counterexample :
    ((SparkEmbeddings.embed_with_local_model sqrtW rngW hash32W ()
        (some encodeW) (List.replicate 100 "t")).2).length = 1 ∧
    ¬ ((SparkEmbeddings.embed_with_local_model sqrtW rngW hash32W ()
        (some encodeW) (List.replicate 100 "t")).2).length = 4 :=
  ⟨rfl, by decide⟩

/-- C5 amended: the local model path invokes the underlying model exactly
once, with the entire input list, whenever a model is present, returning the
encode output unchanged, and never invokes it when the model is absent. -/
theorem c5_amended_single_invocation {σ ε : Type} (sqrt : ℚ → ℚ)
    (rng : RngModel σ) (hash32 : String → Nat) (s : σ)
    (encode : List String → Except ε (List (List ℚ))) (texts : List String) :
    SparkEmbeddings.embed_with_local_model sqrt rng hash32 s (some encode) texts =
      (encode texts, [texts]) ∧
    (SparkEmbeddings.embed_with_local_model sqrt rng hash32 s
        (none : Option (List String → Except ε (List (List ℚ)))) texts).2 = [] :=
  ⟨rfl, rfl⟩

/-- C6 counterexample: a model that raises during encode makes the batch call
propagate the exception: the result is the error itself, no text is replaced
by a fallback vector and no list is returned. -/
theorem c6_counterexample :
    (SparkEmbeddings.embed_with_local_model sqrtW rngW hash32W ()
        (some encodeErrW) ["a"]).1 = .error () := rfl

/-- C6 amended: per text fallback vectors are produced exactly when the model
attribute is None, in which case the output has the length and order of the
input; an exception raised by a present model during encode is not caught and
aborts the whole batch call. -/
theorem c6_amended_fallback_only_without_model {σ ε : Type} (sqrt : ℚ → ℚ)
    (rng : RngModel σ) (hash32 : String → Nat) (s : σ) (texts : List String)
    (encode : List String → Except ε (List (List ℚ))) (e : ε)
    (herr : encode texts = .error e) :
    (SparkEmbeddings.embed_with_local_model sqrt rng hash32 s
        (none : Option (List String → Except ε (List (List ℚ)))) texts).1 =
      .ok (texts.map (fun t =>
        (SparkEmbeddings.generate_fallback_vector sqrt rng hash32 t s).1)) ∧
    (texts.map (fun t =>
        (SparkEmbeddings.generate_fallback_vector sqrt rng hash32 t s).1)).length =
      texts.length ∧
    (SparkEmbeddings.embed_with_local_model sqrt rng hash32 s (some encode) texts).1 =
      .error e := by
  refine ⟨rfl, by simp, ?_⟩
  simp [SparkEmbeddings.embed_with_local_model, herr]

/-- C6 amended witness: the always raising encode on a one element list makes
the call return the error. -/
theorem c6_witness :
    encodeErrW ["b"] = .error () ∧
    (SparkEmbeddings.embed_with_local_model sqrtW rngW hash32W ()
        (some encodeErrW) ["b"]).1 = .error () :=
  ⟨rfl,
    (c6_amended_fallback_only_without_model sqrtW rngW hash32W () ["b"]
        encodeErrW () rfl).2.2⟩

/-- C9: embedding the empty string as a query on the remote path never raises,
the translation being total, and when every attempt fails it returns the
fallback vector derived from the empty string: the source hashes the empty
text directly, md5 of the empty byte string being well defined, so the call
succeeds without any sentinel substitution. -/
theorem c9_embed_query_empty_fallback {σ ε : Type} (sqrt : ℚ → ℚ)
    (rng : RngModel σ) (hash32 : String → Nat) (s : σ)
    (model : Option (List String → Except ε (List (List ℚ))))
    (responses : Nat → SparkResponse)
    (h : ∀ i, i < 3 → (responses i).isRetryableFailure = true) :
    SparkEmbeddings.embed_query sqrt rng hash32 s true model responses "" =
      .ok (SparkEmbeddingAPI.generate_fallback_vector sqrt rng hash32 "" s).1 := by
  have hloop := embed_text_loop_all_retryable
    (SparkEmbeddingAPI.generate_fallback_vector sqrt rng hash32 "" s).1 responses h
  unfold SparkEmbeddings.embed_query SparkEmbeddingAPI.embed_text
  simp [hloop]

/-- C9 witness: with every attempt failing, the empty query returns the
fallback vector for the empty string and no error. -/
theorem c9_witness :
    (∀ i, i < 3 → (respFailW i).isRetryableFailure = true) ∧
    SparkEmbeddings.embed_query sqrtW rngW hash32W () true
        (some encodeW) respFailW "" =
      .ok (SparkEmbeddingAPI.generate_fallback_vector sqrtW rngW hash32W "" ()).1 :=
  ⟨by decide,
    c9_embed_query_empty_fallback sqrtW rngW hash32W () (some encodeW) respFailW
      (by decide)⟩

/-- C10: for every request URL that parses, every host carried by it and
every timestamp, the assembled authorization URL is the request URL followed
by the urlencoded query pairs host, date and authorization, where the
authorization value is the base64 encoding of a header string containing the
API key, the algorithm name hmac-sha256 and the base64 encoded HMAC SHA256
signature, keyed by the shared secret, of the canonical string built from
host, date and the request line, as stated by the spec definition
spec_canonical_string. -/
theorem c10_auth_url_signing
    (hmacSha256 : List Char → List Char → List Char)
    (b64 : List Char → List Char)
    (urlencode : List (List Char × List Char) → List Char)
    (api_key api_secret date request_url host path schema : List Char)
    (h : SparkEmbeddingAPI.parse_url request_url = .ok ⟨host, path, schema⟩) :
    ∃ u1 u2 u3 u4 : List Char,
      SparkEmbeddingAPI.assemble_ws_auth_url hmacSha256 b64 urlencode api_key
          api_secret date request_url ("POST".toList) =
        .ok (request_url ++ "?".toList ++ urlencode
          [("host".toList, host), ("date".toList, date),
            ("authorization".toList,
              b64 (u1 ++ api_key ++ u2 ++ "hmac-sha256".toList ++ u3 ++
                b64 (hmacSha256 api_secret
                  (spec_canonical_string host date ("POST".toList) path)) ++ u4))]) := by
  refine ⟨"api_key=\"".toList, "\", algorithm=\"".toList,
    "\", headers=\"".toList ++ "host date request-line".toList ++
      "\", signature=\"".toList,
    "\"".toList, ?_⟩
  unfold SparkEmbeddingAPI.assemble_ws_auth_url
  rw [h]
  unfold spec_canonical_string
  simp [List.append_assoc]

/-- C10 witness: the fixed endpoint of the source parses into host, path and
schema, and the assembled URL has the stated shape for concrete stand ins of
the base64, HMAC and urlencode primitives. -/
theorem c10_witness :
    SparkEmbeddingAPI.parse_url ("https://emb-cn-huabei-1.xf-yun.com/".toList) =
      .ok ⟨"emb-cn-huabei-1.xf-yun.com".toList, "/".toList, "https://".toList⟩ ∧
    ∃ u1 u2 u3 u4 : List Char,
      SparkEmbeddingAPI.assemble_ws_auth_url (fun k m => k ++ m) (fun l => l)
          (fun ps => (ps.map (fun p => p.1 ++ "=".toList ++ p.2)).flatten)
          ("key".toList) ("secret".toList)
          ("Mon, 01 Jan 2024 00:00:00 GMT".toList)
          ("https://emb-cn-huabei-1.xf-yun.com/".toList) ("POST".toList) =
        .ok ("https://emb-cn-huabei-1.xf-yun.com/".toList ++ "?".toList ++
          (([("host".toList, "emb-cn-huabei-1.xf-yun.com".toList),
            ("date".toList, "Mon, 01 Jan 2024 00:00:00 GMT".toList),
            ("authorization".toList,
              (fun l => l) (u1 ++ "key".toList ++ u2 ++ "hmac-sha256".toList ++
                u3 ++ (fun l => l) ((fun k m => k ++ m) ("secret".toList)
                  (spec_canonical_string ("emb-cn-huabei-1.xf-yun.com".toList)
                    ("Mon, 01 Jan 2024 00:00:00 GMT".toList) ("POST".toList)
                    ("/".toList))) ++ u4))].map
            (fun p => p.1 ++ "=".toList ++ p.2)).flatten)) :=
  ⟨rfl,
    c10_auth_url_signing (fun k m => k ++ m) (fun l => l)
      (fun ps => (ps.map (fun p => p.1 ++ "=".toList ++ p.2)).flatten)
      ("key".toList) ("secret".toList) ("Mon, 01 Jan 2024 00:00:00 GMT".toList)
      ("https://emb-cn-huabei-1.xf-yun.com/".toList)
      ("emb-cn-huabei-1.xf-yun.com".toList) ("/".toList) ("https://".toList)
      rfl⟩

/-- C3, modelled from the spec: embedding the same single text twice with an
unchanged cache returns the same vector both times, and the second call
increments cacheHits by exactly 1 while incrementing totalRequests by exactly
1. The hypotheses state that the cache capacity is at least one and that the
backend answers a single text batch with a single vector. -/
theorem c3_embed_documents_idempotent_cache_hit (svc : EmbeddingService)
    (t : String) (hsize : 1 ≤ svc.cacheSize)
    (hlen : (svc.backend [svc.normalize t]).length = 1) :
    ((svc.embedDocuments [t]).2.embedDocuments [t]).1 = (svc.embedDocuments [t]).1 ∧
    ((svc.embedDocuments [t]).2.embedDocuments [t]).2.cacheHits =
      (svc.embedDocuments [t]).2.cacheHits + 1 ∧
    ((svc.embedDocuments [t]).2.embedDocuments [t]).2.totalRequests =
      (svc.embedDocuments [t]).2.totalRequests + 1 := by
  cases hget : cacheGet svc.cache (svc.normalize t) with
  | some v =>
    have h1 := embedDocuments_single_hit svc t v hget
    have h2 := embedDocuments_single_hit
      ({svc with
        totalRequests := svc.totalRequests + 1
        cacheHits := svc.cacheHits + 1}) t v hget
    simp [h1, h2]
  | none =>
    obtain ⟨w, hw⟩ : ∃ w, svc.backend [svc.normalize t] = [w] := by
      cases hbe : svc.backend [svc.normalize t] with
      | nil => simp [hbe] at hlen
      | cons a l =>
        have hl : l = [] := by
          have h := hlen
          rw [hbe] at h
          simpa using h
        subst hl
        exact ⟨a, rfl⟩
    have h1 := embedDocuments_single_miss svc t w hget hw
    have h2 := embedDocuments_single_hit
      ({svc with
        cache := cachePut svc.cacheSize svc.cache (svc.normalize t) w
        totalRequests := svc.totalRequests + 1}) t w
      (cacheGet_cachePut_self svc.cacheSize svc.cache (svc.normalize t) w hget
        hsize)
    simp [h1, h2]

/-- C3 witness: the concrete service with identity normalization, capacity
1000 and a constant backend satisfies the hypotheses, and the two calls on
the text ai behave as stated. -/
theorem c3_witness :
    1 ≤ svcW.cacheSize ∧
    (svcW.backend [svcW.normalize "ai"]).length = 1 ∧
    (((svcW.embedDocuments ["ai"]).2.embedDocuments ["ai"]).1 =
        (svcW.embedDocuments ["ai"]).1 ∧
      ((svcW.embedDocuments ["ai"]).2.embedDocuments ["ai"]).2.cacheHits =
        (svcW.embedDocuments ["ai"]).2.cacheHits + 1 ∧
      ((svcW.embedDocuments ["ai"]).2.embedDocuments ["ai"]).2.totalRequests =
        (svcW.embedDocuments ["ai"]).2.totalRequests + 1) :=
  ⟨by decide, by decide,
    c3_embed_documents_idempotent_cache_hit svcW "ai" (by decide) (by decide)⟩
